import Mathlib

/-!
# Formal model of the CaughtTweaking backend (`src/app.py`)

The backend computes pairwise TF-IDF / cosine similarity between uploaded
documents and reports the unordered pairs whose similarity percentage is at
least 40.

The model below is a shallow embedding of `src/app.py`:

* `tokenize`, `bigrams`, `docFeatures`, `vocab`, `tf`, `df`, `idf`,
  `weightVec`, `tfidfRow` model `sklearn.feature_extraction.text.TfidfVectorizer`
  as configured on lines 74–78 (`min_df=1`, `stop_words=None`,
  `ngram_range=(1, 2)`) together with its documented defaults:
  `lowercase=True`, `token_pattern=r"(?u)\b\w\w+\b"` (maximal runs of word
  characters of length at least 2), `smooth_idf=True`
  (`idf(t) = ln((1+N)/(1+df(t))) + 1`), `sublinear_tf=False` (raw counts),
  `norm='l2'` (each row divided by its Euclidean norm; all-zero rows are
  left as zero).
* `simMatrix` and `calculate_similarity` model lines 68–87.
  `sklearn.metrics.pairwise.cosine_similarity` normalizes the rows (a no-op
  in exact arithmetic, since `TfidfVectorizer` already emitted unit or zero
  rows) and takes dot products; with Lean's `x / 0 = 0` convention the single
  normalization in `tfidfRow` is an exact model.  `fit_transform` raises
  `ValueError` when the extracted vocabulary is empty; the `except` on
  line 85 turns that into the return value `[]`, modelled by `none`.
  Arithmetic is modelled over `ℝ` (the code uses IEEE doubles).
* `roundHalfEven`, `round2dp`, `pairIdx`, `entryPct`, `keptPairs`,
  `insertDesc`, `sortDesc`, `rankResults` model the result-assembly loop on
  lines 147–161.  Python's `round(x, 2)` rounds half to even; `list.sort`
  with `reverse=True` is a stable descending sort, and a stable descending
  sort is uniquely determined by the comparison, so the insertion sort
  `sortDesc` computes exactly the list Python produces.  These definitions
  are polymorphic over a linear ordered field so that they stay executable
  over `ℚ`; the pipeline instantiates them at `ℝ`.
* `extract_text_from_file`, `eligibleDocs`, `analyze` model the orchestrator
  on lines 96–170.  The external parsers (PyPDF2, python-docx, bytes
  decoding) are abstracted by the `rawText` field of `UploadedFile`: the
  plain text the format-specific parser would produce for the uploaded
  bytes (the parsers return `""` when they fail, and every extractor strips
  surrounding whitespace from the parser output before returning it).
  The HTTP layer (`request.files`, status codes, JSON encoding) is not
  modelled; `analyze` takes the uploaded file list and returns either an
  error or the response payload.
-/

namespace CTB

/-! ### Tokenization (TfidfVectorizer's default analyzer) -/

/-- Word characters for the default token pattern `(?u)\b\w\w+\b`
(alphanumeric or underscore). -/
def isWordChar (c : Char) : Bool := c.isAlphanum || c == '_'

/-- Split a character list into maximal runs of word characters.
The accumulator holds the current run, reversed. -/
def splitRuns : List Char → List Char → List (List Char)
  | [], acc => if acc = [] then [] else [acc.reverse]
  | c :: cs, acc =>
    if isWordChar c then splitRuns cs (c :: acc)
    else if acc = [] then splitRuns cs [] else acc.reverse :: splitRuns cs []

/-- `TfidfVectorizer` tokenization: lowercase the text, then keep the maximal
runs of word characters that have length at least 2 (the default token
pattern `\b\w\w+\b` discards single-character tokens). -/
def tokenize (s : String) : List String :=
  ((splitRuns (s.data.map Char.toLower) []).filter (fun cs => 2 ≤ cs.length)).map String.mk

/-- Contiguous 2-token sequences, joined by a single space, in order
(sklearn's `_word_ngrams` for `n = 2`). -/
def bigrams : List String → List String
  | a :: b :: rest => (a ++ " " ++ b) :: bigrams (b :: rest)
  | _ => []

/-- The feature occurrence list of one document for `ngram_range=(1, 2)`:
all unigrams followed by all bigrams. -/
def docFeatures (s : String) : List String :=
  tokenize s ++ bigrams (tokenize s)

/-! ### The vectorizer (TF-IDF weights) -/

/-- The corpus vocabulary: every feature occurring in at least one document
(`min_df=1`, no pruning), each listed once. -/
def vocab (docs : List (List String)) : List String := docs.flatten.dedup

/-- Raw term frequency of feature `t` in one document (`sublinear_tf=False`). -/
noncomputable def tf (d : List String) (t : String) : ℝ := d.count t

/-- Document frequency: the number of corpus documents containing `t`. -/
def df (docs : List (List String)) (t : String) : ℕ :=
  (docs.filter (fun d => t ∈ d)).length

/-- Smoothed inverse document frequency (`smooth_idf=True`):
`idf(t) = ln((1+N)/(1+df(t))) + 1`. -/
noncomputable def idf (n dft : ℕ) : ℝ := Real.log ((1 + n) / (1 + dft)) + 1

/-- The unnormalized TF-IDF weight vector of a document. -/
noncomputable def weightVec (docs : List (List String)) (d : List String) :
    String → ℝ :=
  fun t => tf d t * idf docs.length (df docs t)

/-- Dot product of two feature vectors over a list of features. -/
noncomputable def dotOn (v w : String → ℝ) : List String → ℝ
  | [] => 0
  | t :: ts => v t * w t + dotOn v w ts

/-- Euclidean norm of a document's weight vector over the vocabulary. -/
noncomputable def l2norm (docs : List (List String)) (d : List String) : ℝ :=
  Real.sqrt (dotOn (weightVec docs d) (weightVec docs d) (vocab docs))

/-- The L2-normalized TF-IDF row of a document (`norm='l2'`).  A document
with no features has an all-zero weight vector and, by the `x / 0 = 0`
convention, stays the zero row — exactly sklearn's behaviour. -/
noncomputable def tfidfRow (docs : List (List String)) (d : List String) :
    String → ℝ :=
  fun t => weightVec docs d t / l2norm docs d

/-! ### The similarity engine (lines 68–87) -/

/-- The all-pairs cosine similarity matrix: dot products of the normalized
rows (`cosine_similarity(tfidf_matrix)`). -/
noncomputable def simMatrix (docs : List (List String)) : List (List ℝ) :=
  docs.map (fun di => docs.map (fun dj =>
    dotOn (tfidfRow docs di) (tfidfRow docs dj) (vocab docs)))

/-- `calculate_similarity` (lines 68–87): `[]` (here `none`) when fewer than
two texts are given, or when `fit_transform` raises because no document
produced any feature (empty vocabulary); otherwise the similarity matrix. -/
noncomputable def calculate_similarity (texts : List String) :
    Option (List (List ℝ)) :=
  if texts.length < 2 then none
  else
    let docs := texts.map docFeatures
    if vocab docs = [] then none
    else some (simMatrix docs)

/-! ### The ranker (lines 147–161) -/

/-- One entry of the reported `results` list. -/
structure ResultPair (K : Type) where
  file1 : String
  file2 : String
  similarity : K
  deriving DecidableEq

section Ranker

variable {K : Type} [LinearOrderedField K] [FloorRing K]

/-- Round to the nearest integer, ties to even — the rounding used by
Python's builtin `round`. -/
def roundHalfEven (x : K) : ℤ :=
  if x - ⌊x⌋ < 1 / 2 then ⌊x⌋
  else if 1 / 2 < x - ⌊x⌋ then ⌊x⌋ + 1
  else if Even ⌊x⌋ then ⌊x⌋ else ⌊x⌋ + 1

/-- Python's `round(x, 2)`. -/
def round2dp (x : K) : K := (roundHalfEven (x * 100) : ℤ) / 100

/-- The index pairs `(i, j)` with `i < j < n`, enumerated exactly as the
nested loops on lines 148–149 do: `i` ascending, and `j` ascending above
`i` for each `i`. -/
def pairIdx (n : ℕ) : List (ℕ × ℕ) :=
  ((List.range n) ×ˢ (List.range n)).filter (fun p => p.1 < p.2)

/-- `similarity_matrix[i][j] * 100` (line 150). -/
def entryPct (sim : List (List K)) (p : ℕ × ℕ) : K :=
  (sim.getD p.1 []).getD p.2 0 * 100

/-- The kept pairs in enumeration order: lines 147–158.  A pair is appended
iff its unrounded percentage is at least 40; the reported value is the
percentage rounded to 2 decimal places. -/
def keptPairs (sim : List (List K)) (names : List String) :
    List (ResultPair K) :=
  (pairIdx names.length).filterMap (fun p =>
    if 40 ≤ entryPct sim p then
      some ⟨names.getD p.1 "", names.getD p.2 "", round2dp (entryPct sim p)⟩
    else none)

/-- Insert `x` into a descending list, after every element with similarity
at least `x`'s (so that earlier-enumerated elements with an equal key stay
first — stability). -/
def insertDesc (x : ResultPair K) : List (ResultPair K) → List (ResultPair K)
  | [] => [x]
  | y :: ys =>
    if x.similarity < y.similarity then y :: insertDesc x ys else x :: y :: ys

/-- Stable descending insertion sort on the `similarity` field.  Python's
`results.sort(key=..., reverse=True)` (line 161) is a stable descending
sort, and any two stable descending sorts agree, so this computes the list
the code produces. -/
def sortDesc : List (ResultPair K) → List (ResultPair K)
  | [] => []
  | x :: xs => insertDesc x (sortDesc xs)

/-- The ranker: threshold, then stable sort by similarity descending
(lines 147–161). -/
def rankResults (sim : List (List K)) (names : List String) :
    List (ResultPair K) :=
  sortDesc (keptPairs sim names)

end Ranker

/-! ### The orchestrator (lines 96–170) -/

/-- An uploaded file as the core sees it: its declared filename and the
plain text the format-specific external parser produces from its bytes
(`""` when the parser fails). -/
structure UploadedFile where
  filename : String
  rawText : String
  deriving DecidableEq

/-- Python's `str.strip()`: remove leading and trailing whitespace. -/
def pyStrip (s : String) : String :=
  ⟨((s.data.dropWhile Char.isWhitespace).reverse.dropWhile Char.isWhitespace).reverse⟩

/-- `name.lower().endswith(suffix)`. -/
def lowerEndsWith (name suffix : String) : Bool :=
  suffix.data.isSuffixOf (name.data.map Char.toLower)

/-- `extract_text_from_file` (lines 52–66): dispatch on the lowercased
filename suffix; every supported branch returns the parser output with
surrounding whitespace stripped, and an unsupported suffix yields `""`. -/
def extract_text_from_file (f : UploadedFile) : String :=
  if lowerEndsWith f.filename ".pdf" then pyStrip f.rawText
  else if lowerEndsWith f.filename ".docx" then pyStrip f.rawText
  else if lowerEndsWith f.filename ".doc" then pyStrip f.rawText
  else if lowerEndsWith f.filename ".txt" then pyStrip f.rawText
  else ""

/-- Split a character list at every occurrence of `sep`, keeping empty
segments, as Python's `str.split(sep)` does. -/
def splitOnChar (sep : Char) : List Char → List Char → List (List Char)
  | [], acc => [acc.reverse]
  | c :: cs, acc =>
    if c = sep then acc.reverse :: splitOnChar sep cs []
    else splitOnChar sep cs (c :: acc)

/-- `filename.lower().split('.')[-1]` (line 119). -/
def extOf (name : String) : String :=
  ⟨(splitOnChar '.' (name.data.map Char.toLower) []).getLastD []⟩

/-- The extensions accepted by the loop on line 121. -/
def allowedExtensions : List String := ["pdf", "docx", "doc", "txt"]

/-- The `documents`/`file_names` pairs built by the loop on lines 118–134:
the files whose extension passes the check on line 121 and whose extracted
text is non-empty, in upload order.  Files failing the extension check are
skipped without any extraction. -/
def eligibleDocs (files : List UploadedFile) : List (String × String) :=
  files.filterMap (fun f =>
    if extOf f.filename ∈ allowedExtensions then
      if extract_text_from_file f ≠ "" then
        some (f.filename, extract_text_from_file f)
      else none
    else none)

/-- The request-level failures of `/analyze` (the `'files' not in
request.files` case is part of the unmodelled HTTP layer). -/
inductive ApiError
  | tooFewFiles
  | tooManyFiles
  | insufficientDocuments
  | similarityFailed
  deriving DecidableEq

/-- The JSON payload of a successful `/analyze` response (lines 165–170). -/
structure AnalyzeResponse where
  success : Bool
  total_files : ℕ
  comparisons : ℕ
  results : List (ResultPair ℝ)

/-- The `/analyze` endpoint (lines 96–170). -/
noncomputable def analyze (files : List UploadedFile) :
    Except ApiError AnalyzeResponse :=
  if files.length < 2 then .error .tooFewFiles
  else if 100 < files.length then .error .tooManyFiles
  else
    let eligible := eligibleDocs files
    if eligible.length < 2 then .error .insufficientDocuments
    else
      match calculate_similarity (eligible.map Prod.snd) with
      | none => .error .similarityFailed
      | some m =>
        .ok ⟨true, eligible.length,
          (rankResults m (eligible.map Prod.fst)).length,
          rankResults m (eligible.map Prod.fst)⟩

/-! ### The spec's claimed tokenization (for comparison with the code's)

The specification describes the vectorizer's vocabulary as built from
"whitespace/punctuation tokenization", i.e. every maximal run of word
characters is a token, single characters included.  These definitions
follow the spec's words; the code's `tokenize` discards length-1 runs. -/

/-- Modelled from the spec's words: whitespace/punctuation tokenization,
keeping every token regardless of length. -/
def specTokenize (s : String) : List String :=
  (splitRuns (s.data.map Char.toLower) []).map String.mk

/-- Modelled from the spec's words: all unigrams and bigrams of the
whitespace/punctuation tokens of a document. -/
def specDocFeatures (s : String) : List String :=
  specTokenize s ++ bigrams (specTokenize s)

/-! ### Ranker lemmas -/

section RankerLemmas

variable {K : Type} [LinearOrderedField K]

theorem insertDesc_perm (x : ResultPair K) (l : List (ResultPair K)) :
    (insertDesc x l).Perm (x :: l) := by
  induction l with
  | nil => exact List.Perm.refl _
  | cons y ys ih =>
    rw [insertDesc]
    split
    · exact (ih.cons y).trans (List.Perm.swap x y ys)
    · exact List.Perm.refl _

theorem mem_insertDesc {z x : ResultPair K} {l : List (ResultPair K)} :
    z ∈ insertDesc x l ↔ z = x ∨ z ∈ l := by
  rw [(insertDesc_perm x l).mem_iff, List.mem_cons]

theorem sortDesc_perm (l : List (ResultPair K)) : (sortDesc l).Perm l := by
  induction l with
  | nil => exact List.Perm.refl _
  | cons x xs ih => exact (insertDesc_perm x (sortDesc xs)).trans (ih.cons x)

theorem insertDesc_sorted (x : ResultPair K) {l : List (ResultPair K)}
    (h : l.Pairwise (fun a b => b.similarity ≤ a.similarity)) :
    (insertDesc x l).Pairwise (fun a b => b.similarity ≤ a.similarity) := by
  induction l with
  | nil => simp [insertDesc]
  | cons y ys ih =>
    rw [List.pairwise_cons] at h
    obtain ⟨hy, hys⟩ := h
    rw [insertDesc]
    split
    · rename_i hxy
      rw [List.pairwise_cons]
      refine ⟨fun z hz => ?_, ih hys⟩
      rcases mem_insertDesc.mp hz with rfl | hz'
      · exact le_of_lt hxy
      · exact hy z hz'
    · rename_i hxy
      rw [List.pairwise_cons]
      refine ⟨fun z hz => ?_, List.pairwise_cons.mpr ⟨hy, hys⟩⟩
      rcases List.mem_cons.mp hz with rfl | hz'
      · exact not_lt.mp hxy
      · exact le_trans (hy z hz') (not_lt.mp hxy)

theorem sortDesc_sorted (l : List (ResultPair K)) :
    (sortDesc l).Pairwise (fun a b => b.similarity ≤ a.similarity) := by
  induction l with
  | nil => simp [sortDesc]
  | cons x xs ih => exact insertDesc_sorted x ih

variable [DecidableEq K]

theorem filter_insertDesc (v : K) (x : ResultPair K) (l : List (ResultPair K)) :
    (insertDesc x l).filter (fun r => decide (r.similarity = v)) =
      if x.similarity = v then
        x :: l.filter (fun r => decide (r.similarity = v))
      else l.filter (fun r => decide (r.similarity = v)) := by
  induction l with
  | nil => by_cases h : x.similarity = v <;> simp [insertDesc, h]
  | cons y ys ih =>
    rw [insertDesc]
    by_cases hxy : x.similarity < y.similarity
    · rw [if_pos hxy, List.filter_cons, ih]
      by_cases hxv : x.similarity = v
      · have hyv : ¬ y.similarity = v := by
          intro hy; exact absurd (hxv.trans hy.symm) (ne_of_lt hxy)
        simp [hxv, hyv, List.filter_cons]
      · by_cases hyv : y.similarity = v <;> simp [hxv, hyv, List.filter_cons]
    · rw [if_neg hxy]
      by_cases hxv : x.similarity = v <;>
        by_cases hyv : y.similarity = v <;>
          simp [hxv, hyv, List.filter_cons]

theorem filter_sortDesc (v : K) (l : List (ResultPair K)) :
    (sortDesc l).filter (fun r => decide (r.similarity = v)) =
      l.filter (fun r => decide (r.similarity = v)) := by
  induction l with
  | nil => rfl
  | cons x xs ih =>
    rw [sortDesc, filter_insertDesc, ih, List.filter_cons]
    by_cases hxv : x.similarity = v <;> simp [hxv]

end RankerLemmas

theorem filterMap_ite {α β : Type} (p : α → Prop) [DecidablePred p] (g : α → β)
    (l : List α) :
    l.filterMap (fun a => if p a then some (g a) else none) =
      (l.filter (fun a => decide (p a))).map g := by
  induction l with
  | nil => rfl
  | cons a l ih => by_cases h : p a <;> simp [List.filter_cons, h, ih]

theorem mem_pairIdx {n : ℕ} {p : ℕ × ℕ} : p ∈ pairIdx n ↔ p.1 < p.2 ∧ p.2 < n := by
  obtain ⟨i, j⟩ := p
  rw [pairIdx, List.mem_filter, List.mem_product, List.mem_range, List.mem_range,
    decide_eq_true_eq]
  omega

theorem pairIdx_nodup (n : ℕ) : (pairIdx n).Nodup :=
  ((List.nodup_range n).product (List.nodup_range n)).filter _

/-! ### Rounding lemmas -/

section RoundingLemmas

variable {K : Type} [LinearOrderedField K] [FloorRing K]

theorem abs_roundHalfEven_sub (x : K) : |(roundHalfEven x : K) - x| ≤ 1 / 2 := by
  have h1 : (⌊x⌋ : K) ≤ x := Int.floor_le x
  have h2 : x < ⌊x⌋ + 1 := Int.lt_floor_add_one x
  rw [roundHalfEven]
  split_ifs with ha hb hc
  · rw [abs_le]; constructor <;> linarith
  · rw [abs_le]; push_cast; constructor <;> [linarith [not_lt.mp ha]; linarith]
  · rw [abs_le]
    have h3 := not_lt.mp ha
    have h4 := not_lt.mp hb
    constructor <;> linarith
  · rw [abs_le]
    have h3 := not_lt.mp ha
    have h4 := not_lt.mp hb
    push_cast
    constructor <;> linarith

theorem abs_round2dp_sub (x : K) : |round2dp x - x| ≤ 1 / 200 := by
  have h := abs_roundHalfEven_sub (x * 100)
  rw [round2dp]
  have h2 : (roundHalfEven (x * 100) : K) / 100 - x =
      ((roundHalfEven (x * 100) : K) - x * 100) / 100 := by ring
  rw [h2, abs_div]
  rw [show |(100 : K)| = 100 by rw [abs_of_pos]; norm_num]
  rw [div_le_div_iff₀ (by norm_num) (by norm_num)]
  linarith

theorem round2dp_intCast (z : ℤ) : round2dp (z : K) = z := by
  have hc : (z : K) * 100 = ((z * 100 : ℤ) : K) := by push_cast; ring
  rw [round2dp, hc, roundHalfEven, Int.floor_intCast]
  rw [if_pos (by norm_num)]
  push_cast
  rw [mul_div_assoc]
  norm_num

end RoundingLemmas

/-! ### Dot-product lemmas -/

theorem dotOn_nil (v w : String → ℝ) : dotOn v w [] = 0 := rfl

theorem dotOn_cons (v w : String → ℝ) (t : String) (ts : List String) :
    dotOn v w (t :: ts) = v t * w t + dotOn v w ts := rfl

theorem dotOn_comm (v w : String → ℝ) (l : List String) :
    dotOn v w l = dotOn w v l := by
  induction l with
  | nil => rfl
  | cons t ts ih => rw [dotOn_cons, dotOn_cons, ih, mul_comm]

theorem dotOn_nonneg {v w : String → ℝ} (hv : ∀ t, 0 ≤ v t) (hw : ∀ t, 0 ≤ w t)
    (l : List String) : 0 ≤ dotOn v w l := by
  induction l with
  | nil => exact le_refl 0
  | cons t ts ih => exact add_nonneg (mul_nonneg (hv t) (hw t)) ih

theorem dotOn_self_nonneg (v : String → ℝ) (l : List String) :
    0 ≤ dotOn v v l := by
  induction l with
  | nil => exact le_refl 0
  | cons t ts ih => exact add_nonneg (mul_self_nonneg (v t)) ih

theorem dotOn_div (v w : String → ℝ) (a b : ℝ) (l : List String) :
    dotOn (fun t => v t / a) (fun t => w t / b) l = dotOn v w l / (a * b) := by
  induction l with
  | nil => rw [dotOn_nil, dotOn_nil, zero_div]
  | cons t ts ih => rw [dotOn_cons, dotOn_cons, ih, div_mul_div_comm, div_add_div_same]

theorem dotOn_eq_sum_map (v w : String → ℝ) (l : List String) :
    dotOn v w l = (l.map (fun t => v t * w t)).sum := by
  induction l with
  | nil => rfl
  | cons t ts ih => rw [dotOn_cons, List.map_cons, List.sum_cons, ih]

theorem dotOn_eq_zero {v w : String → ℝ} {l : List String}
    (h : ∀ t ∈ l, v t * w t = 0) : dotOn v w l = 0 := by
  induction l with
  | nil => rfl
  | cons t ts ih =>
    rw [dotOn_cons, h t (List.mem_cons_self t ts), zero_add]
    exact ih (fun s hs => h s (List.mem_cons_of_mem t hs))

theorem single_le_dotOn_self {t : String} {l : List String} (hmem : t ∈ l)
    (v : String → ℝ) : v t * v t ≤ dotOn v v l := by
  rw [dotOn_eq_sum_map]
  exact List.single_le_sum (fun x hx => by
      obtain ⟨s, _, rfl⟩ := List.mem_map.mp hx
      exact mul_self_nonneg (v s))
    (v t * v t) (List.mem_map.mpr ⟨t, hmem, rfl⟩)

/-- Cauchy–Schwarz for `dotOn` over a duplicate-free feature list with
non-negative coordinates. -/
theorem dotOn_le_sqrt_mul_sqrt {v w : String → ℝ} {l : List String}
    (hl : l.Nodup) (hv : ∀ t, 0 ≤ v t) (hw : ∀ t, 0 ≤ w t) :
    dotOn v w l ≤ Real.sqrt (dotOn v v l) * Real.sqrt (dotOn w w l) := by
  have hD : dotOn v w l = ∑ t ∈ l.toFinset, v t * w t := by
    rw [dotOn_eq_sum_map, List.sum_toFinset _ hl]
  have hA : dotOn v v l = ∑ t ∈ l.toFinset, v t ^ 2 := by
    rw [dotOn_eq_sum_map, List.sum_toFinset _ hl]
    simp [pow_two]
  have hB : dotOn w w l = ∑ t ∈ l.toFinset, w t ^ 2 := by
    rw [dotOn_eq_sum_map, List.sum_toFinset _ hl]
    simp [pow_two]
  have cs := Finset.sum_mul_sq_le_sq_mul_sq l.toFinset v w
  have hDnn : 0 ≤ dotOn v w l := dotOn_nonneg hv hw l
  calc dotOn v w l = Real.sqrt ((dotOn v w l) ^ 2) := by
        rw [Real.sqrt_sq hDnn]
    _ ≤ Real.sqrt ((dotOn v v l) * (dotOn w w l)) := by
        apply Real.sqrt_le_sqrt
        rw [hD, hA, hB]
        exact cs
    _ = Real.sqrt (dotOn v v l) * Real.sqrt (dotOn w w l) :=
        Real.sqrt_mul (dotOn_self_nonneg v l) _

/-! ### Weight-vector lemmas -/

theorem df_le_length (docs : List (List String)) (t : String) :
    df docs t ≤ docs.length :=
  List.length_filter_le _ _

theorem one_le_idf {n dft : ℕ} (h : dft ≤ n) : 1 ≤ idf n dft := by
  rw [idf]
  have harg : (1 : ℝ) ≤ (1 + n) / (1 + dft) := by
    rw [le_div_iff₀ (by positivity)]
    have : (dft : ℝ) ≤ n := Nat.cast_le.mpr h
    linarith
  have := Real.log_nonneg harg
  linarith

theorem weightVec_nonneg (docs : List (List String)) (d : List String)
    (t : String) : 0 ≤ weightVec docs d t :=
  mul_nonneg (Nat.cast_nonneg _)
    (le_trans zero_le_one (one_le_idf (df_le_length docs t)))

theorem tfidfRow_nonneg (docs : List (List String)) (d : List String)
    (t : String) : 0 ≤ tfidfRow docs d t :=
  div_nonneg (weightVec_nonneg docs d t) (Real.sqrt_nonneg _)

theorem weightVec_eq_zero {d : List String} {t : String}
    (docs : List (List String)) (h : d.count t = 0) : weightVec docs d t = 0 := by
  rw [weightVec, tf, h]
  norm_num

theorem tfidfRow_eq_zero {d : List String} {t : String}
    (docs : List (List String)) (h : d.count t = 0) : tfidfRow docs d t = 0 := by
  rw [tfidfRow, weightVec_eq_zero docs h, zero_div]

theorem one_le_weightVec (docs : List (List String)) {d : List String}
    {t : String} (ht : t ∈ d) : 1 ≤ weightVec docs d t := by
  have h1 : 1 ≤ (d.count t : ℝ) := by
    exact_mod_cast List.count_pos_iff.mpr ht
  have h2 : 1 ≤ idf docs.length (df docs t) := one_le_idf (df_le_length docs t)
  calc (1 : ℝ) = 1 * 1 := (one_mul 1).symm
    _ ≤ tf d t * idf docs.length (df docs t) :=
        mul_le_mul h1 h2 zero_le_one (le_trans zero_le_one h1)

theorem mem_vocab_of_mem {docs : List (List String)} {d : List String}
    {t : String} (hd : d ∈ docs) (ht : t ∈ d) : t ∈ vocab docs :=
  List.mem_dedup.mpr (List.mem_flatten.mpr ⟨d, hd, ht⟩)

theorem dotOn_weight_self_pos {docs : List (List String)} {d : List String}
    (hd : d ∈ docs) {t : String} (ht : t ∈ d) :
    0 < dotOn (weightVec docs d) (weightVec docs d) (vocab docs) := by
  have hw : 1 ≤ weightVec docs d t := one_le_weightVec docs ht
  have h1 : 1 ≤ weightVec docs d t * weightVec docs d t := by nlinarith
  have h2 := single_le_dotOn_self (mem_vocab_of_mem hd ht) (weightVec docs d)
  linarith

/-! ### Similarity-matrix entry lemmas -/

theorem simMatrix_length (docs : List (List String)) :
    (simMatrix docs).length = docs.length := by
  rw [simMatrix, List.length_map]

theorem simMatrix_row_length {docs : List (List String)}
    {r : List ℝ} (hr : r ∈ simMatrix docs) : r.length = docs.length := by
  rw [simMatrix] at hr
  obtain ⟨d, _, rfl⟩ := List.mem_map.mp hr
  rw [List.length_map]

theorem simMatrix_entry (docs : List (List String)) {i j : ℕ}
    (hi : i < docs.length) (hj : j < docs.length) :
    ((simMatrix docs).getD i []).getD j 0 =
      dotOn (tfidfRow docs docs[i]) (tfidfRow docs docs[j]) (vocab docs) := by
  have h1 : (simMatrix docs).getD i [] =
      docs.map (fun dj => dotOn (tfidfRow docs docs[i]) (tfidfRow docs dj) (vocab docs)) := by
    rw [simMatrix, List.getD_eq_getElem _ _ (by rw [List.length_map]; exact hi),
      List.getElem_map]
  rw [h1, List.getD_eq_getElem _ _ (by rw [List.length_map]; exact hj),
    List.getElem_map]

theorem dot_rows_eq_div (docs : List (List String)) (d e : List String) :
    dotOn (tfidfRow docs d) (tfidfRow docs e) (vocab docs) =
      dotOn (weightVec docs d) (weightVec docs e) (vocab docs) /
        (l2norm docs d * l2norm docs e) :=
  dotOn_div (weightVec docs d) (weightVec docs e) (l2norm docs d)
    (l2norm docs e) (vocab docs)

theorem dot_rows_self_eq_one {docs : List (List String)} {d : List String}
    (hpos : 0 < dotOn (weightVec docs d) (weightVec docs d) (vocab docs)) :
    dotOn (tfidfRow docs d) (tfidfRow docs d) (vocab docs) = 1 := by
  rw [dot_rows_eq_div, l2norm, Real.mul_self_sqrt (le_of_lt hpos)]
  exact div_self (ne_of_gt hpos)

theorem dot_rows_nonneg (docs : List (List String)) (d e : List String) :
    0 ≤ dotOn (tfidfRow docs d) (tfidfRow docs e) (vocab docs) :=
  dotOn_nonneg (tfidfRow_nonneg docs d) (tfidfRow_nonneg docs e) (vocab docs)

theorem dot_rows_le_one (docs : List (List String)) (d e : List String) :
    dotOn (tfidfRow docs d) (tfidfRow docs e) (vocab docs) ≤ 1 := by
  rw [dot_rows_eq_div]
  have hcs : dotOn (weightVec docs d) (weightVec docs e) (vocab docs) ≤
      Real.sqrt (dotOn (weightVec docs d) (weightVec docs d) (vocab docs)) *
        Real.sqrt (dotOn (weightVec docs e) (weightVec docs e) (vocab docs)) :=
    dotOn_le_sqrt_mul_sqrt (List.nodup_dedup _)
      (weightVec_nonneg docs d) (weightVec_nonneg docs e)
  rcases eq_or_lt_of_le
      (mul_nonneg (Real.sqrt_nonneg (dotOn (weightVec docs d) (weightVec docs d) (vocab docs)))
        (Real.sqrt_nonneg (dotOn (weightVec docs e) (weightVec docs e) (vocab docs)))) with h0 | hpos
  · rw [l2norm, l2norm, ← h0, div_zero]
    exact zero_le_one
  · rw [div_le_one (by rwa [l2norm, l2norm])]
    rw [l2norm, l2norm]
    exact hcs

/-! ### Ranker structure lemmas -/

section RankerStructure

variable {K : Type} [LinearOrderedField K] [FloorRing K]

theorem keptPairs_eq_filter_map (sim : List (List K)) (names : List String) :
    keptPairs sim names =
      ((pairIdx names.length).filter (fun p => decide (40 ≤ entryPct sim p))).map
        (fun p => ⟨names.getD p.1 "", names.getD p.2 "",
          round2dp (entryPct sim p)⟩) :=
  filterMap_ite _ _ _

theorem mem_keptPairs {sim : List (List K)} {names : List String}
    {r : ResultPair K} (h : r ∈ keptPairs sim names) :
    ∃ p : ℕ × ℕ, p.1 < p.2 ∧ p.2 < names.length ∧ 40 ≤ entryPct sim p ∧
      r = ⟨names.getD p.1 "", names.getD p.2 "", round2dp (entryPct sim p)⟩ := by
  rw [keptPairs] at h
  obtain ⟨p, hp, hfp⟩ := List.mem_filterMap.mp h
  by_cases hc : 40 ≤ entryPct sim p
  · rw [if_pos hc] at hfp
    obtain ⟨h1, h2⟩ := mem_pairIdx.mp hp
    exact ⟨p, h1, h2, hc, (Option.some_injective _ hfp).symm⟩
  · rw [if_neg hc] at hfp
    cases hfp

end RankerStructure

/-! ### Claims C1, C4, C10 -/

/-- C1: for every similarity matrix and filename list given to the ranker,
the result list is, up to the final reordering, exactly the records of the
unordered index pairs `(i, j)` with `i < j` within range whose similarity
percentage is at least 40 — each such pair exactly once (the index list is
duplicate-free), hence no self-pairs, no reversed duplicates, and no
below-threshold pairs. -/
theorem c1_ranker_exact_threshold_pairs (sim : List (List ℝ)) (names : List String) :
    ∃ idx : List (ℕ × ℕ),
      idx.Nodup ∧
      (∀ p : ℕ × ℕ, p ∈ idx ↔ p.1 < p.2 ∧ p.2 < names.length ∧ 40 ≤ entryPct sim p) ∧
      (rankResults sim names).Perm
        (idx.map (fun p => ⟨names.getD p.1 "", names.getD p.2 "",
          round2dp (entryPct sim p)⟩)) := by
  refine ⟨(pairIdx names.length).filter (fun p => decide (40 ≤ entryPct sim p)),
    (pairIdx_nodup _).filter _, fun p => ?_, ?_⟩
  · rw [List.mem_filter, mem_pairIdx, decide_eq_true_eq]
    tauto
  · rw [rankResults, keptPairs_eq_filter_map]
    exact sortDesc_perm _

/-- C4: the ranker's output is sorted non-increasingly by the `similarity`
field, and for every similarity value the sub-list of result pairs carrying
that value is identical to the corresponding sub-list of the kept pairs in
their original enumeration order (stability of the sort). -/
theorem c4_ranker_sorted_stable (sim : List (List ℝ)) (names : List String) :
    (rankResults sim names).Pairwise (fun a b => b.similarity ≤ a.similarity) ∧
    ∀ v : ℝ, (rankResults sim names).filter (fun r => decide (r.similarity = v)) =
      (keptPairs sim names).filter (fun r => decide (r.similarity = v)) :=
  ⟨sortDesc_sorted _, fun v => filter_sortDesc v _⟩

/-- C10: every emitted pair passed the 40-threshold on its unrounded
percentage, with rounding applied only to the reported value; and on the
concrete ranker input with raw similarity `0.39999` — whose percentage
`39.999` lies in `[39.995, 40)` — the pair is excluded from the results even
though the rounded display value would be `40.00`. -/
theorem c10_threshold_unrounded (sim : List (List ℝ)) (names : List String)
    (r : ResultPair ℝ) (h : r ∈ rankResults sim names) :
    (∃ p : ℕ × ℕ, p.1 < p.2 ∧ p.2 < names.length ∧ 40 ≤ entryPct sim p ∧
      r = ⟨names.getD p.1 "", names.getD p.2 "", round2dp (entryPct sim p)⟩) ∧
    (39.995 ≤ entryPct ([[1, 0.39999], [0.39999, 1]] : List (List ℝ)) (0, 1) ∧
      entryPct ([[1, 0.39999], [0.39999, 1]] : List (List ℝ)) (0, 1) < 40 ∧
      rankResults ([[1, 0.39999], [0.39999, 1]] : List (List ℝ)) ["f1.txt", "f2.txt"] = [] ∧
      round2dp (entryPct ([[1, 0.39999], [0.39999, 1]] : List (List ℝ)) (0, 1)) = 40) := by
  have hpct : entryPct ([[1, 0.39999], [0.39999, 1]] : List (List ℝ)) (0, 1) = 39.999 := by
    rw [entryPct]
    simp only [List.getD_cons_zero, List.getD_cons_succ]
    norm_num
  refine ⟨mem_keptPairs ((sortDesc_perm _).mem_iff.mp h), ?_, ?_, ?_, ?_⟩
  · rw [hpct]; norm_num
  · rw [hpct]; norm_num
  · rw [rankResults, keptPairs]
    have h2 : pairIdx (["f1.txt", "f2.txt"] : List String).length = [(0, 1)] := by decide
    rw [h2, List.filterMap_cons, if_neg (by rw [hpct]; norm_num), List.filterMap_nil]
    rfl
  · rw [hpct, round2dp]
    have hfl : ⌊(39.999 : ℝ) * 100⌋ = 3999 := by
      rw [Int.floor_eq_iff]
      norm_num
    rw [roundHalfEven, hfl]
    rw [if_neg (by norm_num), if_pos (by norm_num)]
    norm_num

/-- C10 witness: the concrete exclusion from `c10_threshold_unrounded`,
obtained by instantiating it at a ranker input that does emit a pair. -/
theorem c10_threshold_unrounded_witness :
    39.995 ≤ entryPct ([[1, 0.39999], [0.39999, 1]] : List (List ℝ)) (0, 1) ∧
    entryPct ([[1, 0.39999], [0.39999, 1]] : List (List ℝ)) (0, 1) < 40 ∧
    rankResults ([[1, 0.39999], [0.39999, 1]] : List (List ℝ)) ["f1.txt", "f2.txt"] = [] ∧
    round2dp (entryPct ([[1, 0.39999], [0.39999, 1]] : List (List ℝ)) (0, 1)) = 40 := by
  have hrank : rankResults ([[1, 0.5], [0.5, 1]] : List (List ℝ)) ["a.txt", "b.txt"] =
      [⟨"a.txt", "b.txt", round2dp (entryPct ([[1, 0.5], [0.5, 1]] : List (List ℝ)) (0, 1))⟩] := by
    rw [rankResults, keptPairs,
      show pairIdx ((["a.txt", "b.txt"] : List String)).length = [(0, 1)] from by decide,
      List.filterMap_cons,
      if_pos (by
        rw [entryPct]
        simp only [List.getD_cons_zero, List.getD_cons_succ]
        norm_num),
      List.filterMap_nil]
    rfl
  have hmem : (⟨"a.txt", "b.txt",
      round2dp (entryPct ([[1, 0.5], [0.5, 1]] : List (List ℝ)) (0, 1))⟩ : ResultPair ℝ) ∈
      rankResults ([[1, 0.5], [0.5, 1]] : List (List ℝ)) ["a.txt", "b.txt"] := by
    rw [hrank]
    exact List.mem_singleton_self _
  exact (c10_threshold_unrounded _ _ _ hmem).2

/-- C5 counterexample: on the spec's scenario corpus every token is a
single character, so the vectorizer's token pattern produces an empty
vocabulary, `fit_transform` raises, `calculate_similarity` returns `[]`
and the endpoint takes the error path — no pair is reported at all. -/
theorem c5_scenario_counterexample :
    analyze [⟨"f1.txt", "a b c d"⟩, ⟨"f2.txt", "a b c e"⟩, ⟨"f3.txt", "x y z"⟩] =
      .error .similarityFailed := by
  rfl

/-- C5 (amended): with the scenario corpus adjusted to use tokens that
survive the vectorizer's token pattern (letters doubled:
`["aa bb cc dd", "aa bb cc ee", "xx yy zz"]`), the pipeline reports exactly
the pair of documents 0 and 1, with reported similarity above 40, and no
pair involving document 2. -/
theorem c5_scenario_doubled :
    ∃ v : ℝ, 40 < v ∧
      analyze [⟨"f1.txt", "aa bb cc dd"⟩, ⟨"f2.txt", "aa bb cc ee"⟩, ⟨"f3.txt", "xx yy zz"⟩] =
        .ok ⟨true, 3, 1, [⟨"f1.txt", "f2.txt", v⟩]⟩ := by
  have hD : (["aa bb cc dd", "aa bb cc ee", "xx yy zz"] : List String).map docFeatures =
      [["aa","bb","cc","dd","aa bb","bb cc","cc dd"],
      ["aa","bb","cc","ee","aa bb","bb cc","cc ee"],
      ["xx","yy","zz","xx yy","yy zz"]] := by decide
  have hA1 : 1 ≤ idf 3 2 := one_le_idf (by norm_num)
  have hB1 : 1 ≤ idf 3 1 := one_le_idf (by norm_num)
  have hBlog : idf 3 1 = Real.log 2 + 1 := by
    rw [idf, show ((1 : ℝ) + (3 : ℕ)) / (1 + (1 : ℕ)) = 2 by norm_num]
  have hB17 : idf 3 1 < 17 / 10 := by
    rw [hBlog]
    have := Real.log_two_lt_d9
    norm_num at this ⊢
    linarith
  have hden : 0 < 5 * idf 3 2 ^ 2 + 2 * idf 3 1 ^ 2 := by nlinarith
  have hS01 : dotOn
      (weightVec [["aa","bb","cc","dd","aa bb","bb cc","cc dd"],
      ["aa","bb","cc","ee","aa bb","bb cc","cc ee"],
      ["xx","yy","zz","xx yy","yy zz"]] ["aa","bb","cc","dd","aa bb","bb cc","cc dd"])
      (weightVec [["aa","bb","cc","dd","aa bb","bb cc","cc dd"],
      ["aa","bb","cc","ee","aa bb","bb cc","cc ee"],
      ["xx","yy","zz","xx yy","yy zz"]] ["aa","bb","cc","ee","aa bb","bb cc","cc ee"])
      (vocab [["aa","bb","cc","dd","aa bb","bb cc","cc dd"],
      ["aa","bb","cc","ee","aa bb","bb cc","cc ee"],
      ["xx","yy","zz","xx yy","yy zz"]]) = 5 * idf 3 2 ^ 2 := by
    simp only [show vocab [["aa","bb","cc","dd","aa bb","bb cc","cc dd"],
      ["aa","bb","cc","ee","aa bb","bb cc","cc ee"],
      ["xx","yy","zz","xx yy","yy zz"]] =
        ["dd","cc dd","aa","bb","cc","ee","aa bb","bb cc","cc ee","xx","yy","zz","xx yy","yy zz"]
      from by decide, dotOn_cons, dotOn_nil, weightVec, tf]
    simp [df]
    ring
  have hS00 : dotOn
      (weightVec [["aa","bb","cc","dd","aa bb","bb cc","cc dd"],
      ["aa","bb","cc","ee","aa bb","bb cc","cc ee"],
      ["xx","yy","zz","xx yy","yy zz"]] ["aa","bb","cc","dd","aa bb","bb cc","cc dd"])
      (weightVec [["aa","bb","cc","dd","aa bb","bb cc","cc dd"],
      ["aa","bb","cc","ee","aa bb","bb cc","cc ee"],
      ["xx","yy","zz","xx yy","yy zz"]] ["aa","bb","cc","dd","aa bb","bb cc","cc dd"])
      (vocab [["aa","bb","cc","dd","aa bb","bb cc","cc dd"],
      ["aa","bb","cc","ee","aa bb","bb cc","cc ee"],
      ["xx","yy","zz","xx yy","yy zz"]]) = 5 * idf 3 2 ^ 2 + 2 * idf 3 1 ^ 2 := by
    simp only [show vocab [["aa","bb","cc","dd","aa bb","bb cc","cc dd"],
      ["aa","bb","cc","ee","aa bb","bb cc","cc ee"],
      ["xx","yy","zz","xx yy","yy zz"]] =
        ["dd","cc dd","aa","bb","cc","ee","aa bb","bb cc","cc ee","xx","yy","zz","xx yy","yy zz"]
      from by decide, dotOn_cons, dotOn_nil, weightVec, tf]
    simp [df]
    ring
  have hS11 : dotOn
      (weightVec [["aa","bb","cc","dd","aa bb","bb cc","cc dd"],
      ["aa","bb","cc","ee","aa bb","bb cc","cc ee"],
      ["xx","yy","zz","xx yy","yy zz"]] ["aa","bb","cc","ee","aa bb","bb cc","cc ee"])
      (weightVec [["aa","bb","cc","dd","aa bb","bb cc","cc dd"],
      ["aa","bb","cc","ee","aa bb","bb cc","cc ee"],
      ["xx","yy","zz","xx yy","yy zz"]] ["aa","bb","cc","ee","aa bb","bb cc","cc ee"])
      (vocab [["aa","bb","cc","dd","aa bb","bb cc","cc dd"],
      ["aa","bb","cc","ee","aa bb","bb cc","cc ee"],
      ["xx","yy","zz","xx yy","yy zz"]]) = 5 * idf 3 2 ^ 2 + 2 * idf 3 1 ^ 2 := by
    simp only [show vocab [["aa","bb","cc","dd","aa bb","bb cc","cc dd"],
      ["aa","bb","cc","ee","aa bb","bb cc","cc ee"],
      ["xx","yy","zz","xx yy","yy zz"]] =
        ["dd","cc dd","aa","bb","cc","ee","aa bb","bb cc","cc ee","xx","yy","zz","xx yy","yy zz"]
      from by decide, dotOn_cons, dotOn_nil, weightVec, tf]
    simp [df]
    ring
  have hl20 : l2norm [["aa","bb","cc","dd","aa bb","bb cc","cc dd"],
      ["aa","bb","cc","ee","aa bb","bb cc","cc ee"],
      ["xx","yy","zz","xx yy","yy zz"]] ["aa","bb","cc","dd","aa bb","bb cc","cc dd"] =
      Real.sqrt (5 * idf 3 2 ^ 2 + 2 * idf 3 1 ^ 2) := by
    rw [l2norm, hS00]
  have hl21 : l2norm [["aa","bb","cc","dd","aa bb","bb cc","cc dd"],
      ["aa","bb","cc","ee","aa bb","bb cc","cc ee"],
      ["xx","yy","zz","xx yy","yy zz"]] ["aa","bb","cc","ee","aa bb","bb cc","cc ee"] =
      Real.sqrt (5 * idf 3 2 ^ 2 + 2 * idf 3 1 ^ 2) := by
    rw [l2norm, hS11]
  have hentry01 : ((simMatrix [["aa","bb","cc","dd","aa bb","bb cc","cc dd"],
      ["aa","bb","cc","ee","aa bb","bb cc","cc ee"],
      ["xx","yy","zz","xx yy","yy zz"]]).getD 0 []).getD 1 0 =
      5 * idf 3 2 ^ 2 / (5 * idf 3 2 ^ 2 + 2 * idf 3 1 ^ 2) := by
    rw [simMatrix_entry _ (by norm_num) (by norm_num)]
    simp only [List.getElem_cons_zero, List.getElem_cons_succ]
    rw [dot_rows_eq_div, hS01, hl20, hl21, Real.mul_self_sqrt (le_of_lt hden)]
  have hentry02 : ((simMatrix [["aa","bb","cc","dd","aa bb","bb cc","cc dd"],
      ["aa","bb","cc","ee","aa bb","bb cc","cc ee"],
      ["xx","yy","zz","xx yy","yy zz"]]).getD 0 []).getD 2 0 = 0 := by
    rw [simMatrix_entry _ (by norm_num) (by norm_num)]
    simp only [List.getElem_cons_zero, List.getElem_cons_succ]
    apply dotOn_eq_zero
    have hz : ∀ t ∈ (["dd","cc dd","aa","bb","cc","ee","aa bb","bb cc","cc ee","xx","yy","zz","xx yy","yy zz"] : List String),
        List.count t ["aa","bb","cc","dd","aa bb","bb cc","cc dd"] = 0 ∨
        List.count t ["xx","yy","zz","xx yy","yy zz"] = 0 := by decide
    intro t ht
    rcases hz t ht with h | h
    · rw [tfidfRow_eq_zero _ h, zero_mul]
    · rw [tfidfRow_eq_zero _ h, mul_zero]
  have hentry12 : ((simMatrix [["aa","bb","cc","dd","aa bb","bb cc","cc dd"],
      ["aa","bb","cc","ee","aa bb","bb cc","cc ee"],
      ["xx","yy","zz","xx yy","yy zz"]]).getD 1 []).getD 2 0 = 0 := by
    rw [simMatrix_entry _ (by norm_num) (by norm_num)]
    simp only [List.getElem_cons_zero, List.getElem_cons_succ]
    apply dotOn_eq_zero
    have hz : ∀ t ∈ (["dd","cc dd","aa","bb","cc","ee","aa bb","bb cc","cc ee","xx","yy","zz","xx yy","yy zz"] : List String),
        List.count t ["aa","bb","cc","ee","aa bb","bb cc","cc ee"] = 0 ∨
        List.count t ["xx","yy","zz","xx yy","yy zz"] = 0 := by decide
    intro t ht
    rcases hz t ht with h | h
    · rw [tfidfRow_eq_zero _ h, zero_mul]
    · rw [tfidfRow_eq_zero _ h, mul_zero]
  have hpct : 40 + 1 / 200 < ((simMatrix [["aa","bb","cc","dd","aa bb","bb cc","cc dd"],
      ["aa","bb","cc","ee","aa bb","bb cc","cc ee"],
      ["xx","yy","zz","xx yy","yy zz"]]).getD 0 []).getD 1 0 * 100 := by
    rw [hentry01, div_mul_eq_mul_div, lt_div_iff₀ hden]
    have hA2 : 1 ≤ idf 3 2 ^ 2 := by nlinarith
    have hB2 : idf 3 1 ^ 2 ≤ (17 / 10) ^ 2 := by nlinarith
    nlinarith
  have hpct40 : (40 : ℝ) ≤ ((simMatrix [["aa","bb","cc","dd","aa bb","bb cc","cc dd"],
      ["aa","bb","cc","ee","aa bb","bb cc","cc ee"],
      ["xx","yy","zz","xx yy","yy zz"]]).getD 0 []).getD 1 0 * 100 := by
    linarith
  have hcalc : calculate_similarity (["aa bb cc dd", "aa bb cc ee", "xx yy zz"] : List String) =
      some (simMatrix [["aa","bb","cc","dd","aa bb","bb cc","cc dd"],
      ["aa","bb","cc","ee","aa bb","bb cc","cc ee"],
      ["xx","yy","zz","xx yy","yy zz"]]) := by
    rw [calculate_similarity, if_neg (by norm_num)]
    simp only [hD]
    rw [if_neg (by decide)]
  have hp01 : entryPct (simMatrix [["aa","bb","cc","dd","aa bb","bb cc","cc dd"],
      ["aa","bb","cc","ee","aa bb","bb cc","cc ee"],
      ["xx","yy","zz","xx yy","yy zz"]]) (0, 1) =
      ((simMatrix [["aa","bb","cc","dd","aa bb","bb cc","cc dd"],
      ["aa","bb","cc","ee","aa bb","bb cc","cc ee"],
      ["xx","yy","zz","xx yy","yy zz"]]).getD 0 []).getD 1 0 * 100 := rfl
  have hp02 : entryPct (simMatrix [["aa","bb","cc","dd","aa bb","bb cc","cc dd"],
      ["aa","bb","cc","ee","aa bb","bb cc","cc ee"],
      ["xx","yy","zz","xx yy","yy zz"]]) (0, 2) =
      ((simMatrix [["aa","bb","cc","dd","aa bb","bb cc","cc dd"],
      ["aa","bb","cc","ee","aa bb","bb cc","cc ee"],
      ["xx","yy","zz","xx yy","yy zz"]]).getD 0 []).getD 2 0 * 100 := rfl
  have hp12 : entryPct (simMatrix [["aa","bb","cc","dd","aa bb","bb cc","cc dd"],
      ["aa","bb","cc","ee","aa bb","bb cc","cc ee"],
      ["xx","yy","zz","xx yy","yy zz"]]) (1, 2) =
      ((simMatrix [["aa","bb","cc","dd","aa bb","bb cc","cc dd"],
      ["aa","bb","cc","ee","aa bb","bb cc","cc ee"],
      ["xx","yy","zz","xx yy","yy zz"]]).getD 1 []).getD 2 0 * 100 := rfl
  have hrank : rankResults (simMatrix [["aa","bb","cc","dd","aa bb","bb cc","cc dd"],
      ["aa","bb","cc","ee","aa bb","bb cc","cc ee"],
      ["xx","yy","zz","xx yy","yy zz"]])
      ["f1.txt", "f2.txt", "f3.txt"] =
      [⟨"f1.txt", "f2.txt", round2dp (((simMatrix [["aa","bb","cc","dd","aa bb","bb cc","cc dd"],
      ["aa","bb","cc","ee","aa bb","bb cc","cc ee"],
      ["xx","yy","zz","xx yy","yy zz"]]).getD 0 []).getD 1 0 * 100)⟩] := by
    rw [rankResults, keptPairs]
    rw [show pairIdx (["f1.txt", "f2.txt", "f3.txt"] : List String).length =
      [(0, 1), (0, 2), (1, 2)] from by decide]
    rw [List.filterMap_cons, if_pos (by rw [hp01]; exact hpct40),
      List.filterMap_cons, if_neg (by rw [hp02, hentry02]; norm_num),
      List.filterMap_cons, if_neg (by rw [hp12, hentry12]; norm_num),
      List.filterMap_nil]
    rw [hp01]
    rfl
  refine ⟨round2dp (((simMatrix [["aa","bb","cc","dd","aa bb","bb cc","cc dd"],
      ["aa","bb","cc","ee","aa bb","bb cc","cc ee"],
      ["xx","yy","zz","xx yy","yy zz"]]).getD 0 []).getD 1 0 * 100), ?_, ?_⟩
  · have habs := abs_round2dp_sub (((simMatrix [["aa","bb","cc","dd","aa bb","bb cc","cc dd"],
      ["aa","bb","cc","ee","aa bb","bb cc","cc ee"],
      ["xx","yy","zz","xx yy","yy zz"]]).getD 0 []).getD 1 0 * 100)
    rw [abs_le] at habs
    linarith [habs.1]
  · rw [show analyze [⟨"f1.txt", "aa bb cc dd"⟩, ⟨"f2.txt", "aa bb cc ee"⟩, ⟨"f3.txt", "xx yy zz"⟩] =
        (match calculate_similarity ((eligibleDocs [⟨"f1.txt", "aa bb cc dd"⟩, ⟨"f2.txt", "aa bb cc ee"⟩, ⟨"f3.txt", "xx yy zz"⟩]).map Prod.snd) with
          | none => Except.error ApiError.similarityFailed
          | some m =>
            Except.ok ⟨true, (eligibleDocs [⟨"f1.txt", "aa bb cc dd"⟩, ⟨"f2.txt", "aa bb cc ee"⟩, ⟨"f3.txt", "xx yy zz"⟩]).length,
              (rankResults m ((eligibleDocs [⟨"f1.txt", "aa bb cc dd"⟩, ⟨"f2.txt", "aa bb cc ee"⟩, ⟨"f3.txt", "xx yy zz"⟩]).map Prod.fst)).length,
              rankResults m ((eligibleDocs [⟨"f1.txt", "aa bb cc dd"⟩, ⟨"f2.txt", "aa bb cc ee"⟩, ⟨"f3.txt", "xx yy zz"⟩]).map Prod.fst)⟩)
      from by rw [analyze, if_neg (by norm_num), if_neg (by norm_num), if_neg (by decide)]]
    rw [show (eligibleDocs [⟨"f1.txt", "aa bb cc dd"⟩, ⟨"f2.txt", "aa bb cc ee"⟩, ⟨"f3.txt", "xx yy zz"⟩]).map Prod.snd = (["aa bb cc dd", "aa bb cc ee", "xx yy zz"] : List String) from by decide]
    rw [show (eligibleDocs [⟨"f1.txt", "aa bb cc dd"⟩, ⟨"f2.txt", "aa bb cc ee"⟩, ⟨"f3.txt", "xx yy zz"⟩]).map Prod.fst = ["f1.txt", "f2.txt", "f3.txt"] from by decide]
    rw [show (eligibleDocs [⟨"f1.txt", "aa bb cc dd"⟩, ⟨"f2.txt", "aa bb cc ee"⟩, ⟨"f3.txt", "xx yy zz"⟩]).length = 3 from by decide]
    rw [hcalc]
    show Except.ok (⟨true, 3,
      (rankResults (simMatrix [["aa","bb","cc","dd","aa bb","bb cc","cc dd"],
      ["aa","bb","cc","ee","aa bb","bb cc","cc ee"],
      ["xx","yy","zz","xx yy","yy zz"]]) ["f1.txt", "f2.txt", "f3.txt"]).length,
      rankResults (simMatrix [["aa","bb","cc","dd","aa bb","bb cc","cc dd"],
      ["aa","bb","cc","ee","aa bb","bb cc","cc ee"],
      ["xx","yy","zz","xx yy","yy zz"]]) ["f1.txt", "f2.txt", "f3.txt"]⟩ : AnalyzeResponse) = _
    rw [hrank]
    rfl

/-- C8 counterexample: two documents with identical non-empty text `"a"`
(which yields no feature, hence a zero TF-IDF row) get computed similarity
0, not 1.0: in the corpus `["aa bb", "a", "a"]` the matrix exists and its
(1,2) entry is 0, refuting the unconditional identical-text claim. -/
theorem c8_identical_counterexample :
    ("a" : String) ≠ "" ∧
    (["aa bb", "a", "a"] : List String).getD 1 "" =
      (["aa bb", "a", "a"] : List String).getD 2 "" ∧
    ∃ m : List (List ℝ), calculate_similarity ["aa bb", "a", "a"] = some m ∧
      (m.getD 1 []).getD 2 0 = 0 ∧ (m.getD 1 []).getD 2 0 ≠ 1 := by
  have hD : (["aa bb", "a", "a"] : List String).map docFeatures =
      [["aa", "bb", "aa bb"], [], []] := by decide
  have hcalc : calculate_similarity ["aa bb", "a", "a"] =
      some (simMatrix [["aa", "bb", "aa bb"], [], []]) := by
    rw [calculate_similarity, if_neg (by norm_num)]
    simp only [hD]
    rw [if_neg (by decide)]
  have hentry0 :
      (((simMatrix [["aa", "bb", "aa bb"], [], []]).getD 1 []).getD 2 0 : ℝ) = 0 := by
    rw [simMatrix_entry _ (by norm_num) (by norm_num)]
    simp only [List.getElem_cons_zero, List.getElem_cons_succ]
    apply dotOn_eq_zero
    intro t ht
    rw [tfidfRow_eq_zero _ (List.count_nil t), zero_mul]
  exact ⟨by decide, rfl, simMatrix [["aa", "bb", "aa bb"], [], []], hcalc,
    hentry0, by rw [hentry0]; norm_num⟩

/-- C8 (amended): any two documents with identical text yielding at least
one feature have computed similarity exactly 1 (identical text whose
tokenization is empty instead yields a zero row, see the counterexample);
and on the corpus `["the cat sat", "the cat sat"]` the pipeline succeeds
with exactly one reported pair, carrying similarity 100.00. -/
theorem c8_identical_similarity :
    (∀ (texts : List String) (m : List (List ℝ)) (i j : ℕ),
      calculate_similarity texts = some m →
      i < texts.length → j < texts.length →
      texts.getD i "" = texts.getD j "" →
      docFeatures (texts.getD i "") ≠ [] →
      (m.getD i []).getD j 0 = 1) ∧
    analyze [⟨"a.txt", "the cat sat"⟩, ⟨"b.txt", "the cat sat"⟩] =
      .ok ⟨true, 2, 1, [⟨"a.txt", "b.txt", 100⟩]⟩ := by
  constructor
  · intro texts m i j hcalc hi hj heq hne
    simp only [calculate_similarity] at hcalc
    by_cases h1 : texts.length < 2
    · rw [if_pos h1] at hcalc; cases hcalc
    · rw [if_neg h1] at hcalc
      by_cases h2 : vocab (texts.map docFeatures) = []
      · rw [if_pos h2] at hcalc; cases hcalc
      · rw [if_neg h2] at hcalc
        have hm : m = simMatrix (texts.map docFeatures) :=
          (Option.some.inj hcalc).symm
        subst hm
        have hi' : i < (texts.map docFeatures).length := by
          rw [List.length_map]; exact hi
        have hj' : j < (texts.map docFeatures).length := by
          rw [List.length_map]; exact hj
        rw [simMatrix_entry _ hi' hj']
        have hdi : (texts.map docFeatures)[i] = docFeatures (texts.getD i "") := by
          rw [List.getElem_map, List.getD_eq_getElem _ _ hi]
        have hdj : (texts.map docFeatures)[j] = docFeatures (texts.getD j "") := by
          rw [List.getElem_map, List.getD_eq_getElem _ _ hj]
        rw [hdi, hdj, ← heq]
        apply dot_rows_self_eq_one
        obtain ⟨t, ht⟩ := List.exists_mem_of_ne_nil _ hne
        have hdmem : docFeatures (texts.getD i "") ∈ texts.map docFeatures := by
          apply List.mem_map_of_mem
          rw [List.getD_eq_getElem _ _ hi]
          exact List.getElem_mem hi
        exact dotOn_weight_self_pos hdmem ht
  · have hD : (["the cat sat", "the cat sat"] : List String).map docFeatures =
        [["the","cat","sat","the cat","cat sat"], ["the","cat","sat","the cat","cat sat"]] := by decide
    have hcalc : calculate_similarity (["the cat sat", "the cat sat"] : List String) =
        some (simMatrix [["the","cat","sat","the cat","cat sat"], ["the","cat","sat","the cat","cat sat"]]) := by
      rw [calculate_similarity, if_neg (by norm_num)]
      simp only [hD]
      rw [if_neg (by decide)]
    have hentry : ((simMatrix [["the","cat","sat","the cat","cat sat"], ["the","cat","sat","the cat","cat sat"]]).getD 0 []).getD 1 0 = 1 := by
      rw [simMatrix_entry _ (by norm_num) (by norm_num)]
      simp only [List.getElem_cons_zero, List.getElem_cons_succ]
      apply dot_rows_self_eq_one
      exact dotOn_weight_self_pos
        (show (["the","cat","sat","the cat","cat sat"] : List String) ∈
          [["the","cat","sat","the cat","cat sat"], ["the","cat","sat","the cat","cat sat"]]
          from by decide)
        (show ("the" : String) ∈ (["the","cat","sat","the cat","cat sat"] : List String)
          from by decide)
    have hp01 : entryPct (simMatrix [["the","cat","sat","the cat","cat sat"], ["the","cat","sat","the cat","cat sat"]]) (0, 1) =
        ((simMatrix [["the","cat","sat","the cat","cat sat"], ["the","cat","sat","the cat","cat sat"]]).getD 0 []).getD 1 0 * 100 := rfl
    have hval : round2dp (((simMatrix [["the","cat","sat","the cat","cat sat"], ["the","cat","sat","the cat","cat sat"]]).getD 0 []).getD 1 0 * 100) = 100 := by
      rw [hentry, one_mul, show (100 : ℝ) = ((100 : ℤ) : ℝ) by norm_num,
        round2dp_intCast]
    have hrank : rankResults (simMatrix [["the","cat","sat","the cat","cat sat"], ["the","cat","sat","the cat","cat sat"]]) ["a.txt", "b.txt"] =
        [⟨"a.txt", "b.txt", (100 : ℝ)⟩] := by
      rw [rankResults, keptPairs]
      rw [show pairIdx (["a.txt", "b.txt"] : List String).length =
        [(0, 1)] from by decide]
      rw [List.filterMap_cons,
        if_pos (by rw [hp01, hentry]; norm_num),
        List.filterMap_nil]
      rw [hp01, hval]
      rfl
    rw [show analyze [⟨"a.txt", "the cat sat"⟩, ⟨"b.txt", "the cat sat"⟩] =
        (match calculate_similarity ((eligibleDocs [⟨"a.txt", "the cat sat"⟩, ⟨"b.txt", "the cat sat"⟩]).map Prod.snd) with
          | none => Except.error ApiError.similarityFailed
          | some m =>
            Except.ok ⟨true, (eligibleDocs [⟨"a.txt", "the cat sat"⟩, ⟨"b.txt", "the cat sat"⟩]).length,
              (rankResults m ((eligibleDocs [⟨"a.txt", "the cat sat"⟩, ⟨"b.txt", "the cat sat"⟩]).map Prod.fst)).length,
              rankResults m ((eligibleDocs [⟨"a.txt", "the cat sat"⟩, ⟨"b.txt", "the cat sat"⟩]).map Prod.fst)⟩)
      from by rw [analyze, if_neg (by norm_num), if_neg (by norm_num), if_neg (by decide)]]
    rw [show (eligibleDocs [⟨"a.txt", "the cat sat"⟩, ⟨"b.txt", "the cat sat"⟩]).map Prod.snd = (["the cat sat", "the cat sat"] : List String) from by decide]
    rw [show (eligibleDocs [⟨"a.txt", "the cat sat"⟩, ⟨"b.txt", "the cat sat"⟩]).map Prod.fst = ["a.txt", "b.txt"] from by decide]
    rw [show (eligibleDocs [⟨"a.txt", "the cat sat"⟩, ⟨"b.txt", "the cat sat"⟩]).length = 2 from by decide]
    rw [hcalc]
    show Except.ok (⟨true, 2,
      (rankResults (simMatrix [["the","cat","sat","the cat","cat sat"], ["the","cat","sat","the cat","cat sat"]]) ["a.txt", "b.txt"]).length,
      rankResults (simMatrix [["the","cat","sat","the cat","cat sat"], ["the","cat","sat","the cat","cat sat"]]) ["a.txt", "b.txt"]⟩ : AnalyzeResponse) = _
    rw [hrank]
    rfl

/-- C8 witness: the general identical-text property instantiated on the
concrete corpus `["aa bb", "aa bb"]`, with every hypothesis discharged. -/
theorem c8_identical_similarity_witness :
    ∃ m : List (List ℝ), calculate_similarity ["aa bb", "aa bb"] = some m ∧
      (m.getD 0 []).getD 1 0 = 1 := by
  have hD : (["aa bb", "aa bb"] : List String).map docFeatures =
      [["aa", "bb", "aa bb"], ["aa", "bb", "aa bb"]] := by decide
  have hcalc : calculate_similarity ["aa bb", "aa bb"] =
      some (simMatrix [["aa", "bb", "aa bb"], ["aa", "bb", "aa bb"]]) := by
    rw [calculate_similarity, if_neg (by norm_num)]
    simp only [hD]
    rw [if_neg (by decide)]
  exact ⟨_, hcalc,
    c8_identical_similarity.1 ["aa bb", "aa bb"] _ 0 1 hcalc
      (by norm_num) (by norm_num) rfl (by decide)⟩

/-- C2 counterexample: the corpus `["a", "b"]` has two documents with
non-empty text, yet the similarity engine returns no matrix at all (both
texts tokenize to nothing, the vocabulary is empty, `fit_transform` raises
and `calculate_similarity` returns `[]`), so no square symmetric matrix
with unit diagonal is produced. -/
theorem c2_matrix_counterexample :
    ("a" : String) ≠ "" ∧ ("b" : String) ≠ "" ∧
    calculate_similarity ["a", "b"] = none := by
  exact ⟨by decide, by decide, rfl⟩

/-- C2 (amended): for every corpus of size at least 2 in which every
document produces at least one feature (at least one token of two or more
word characters — non-empty raw text alone is not enough), the similarity
matrix exists, is square of size |corpus| × |corpus|, symmetric, has every
diagonal entry exactly 1, and has all entries in [0, 1]. -/
theorem c2_matrix_props (texts : List String)
    (h2 : 2 ≤ texts.length)
    (htok : ∀ s ∈ texts, docFeatures s ≠ []) :
    ∃ m : List (List ℝ),
      calculate_similarity texts = some m ∧
      m.length = texts.length ∧
      (∀ r ∈ m, r.length = texts.length) ∧
      (∀ i j, i < texts.length → j < texts.length →
        (m.getD i []).getD j 0 = (m.getD j []).getD i 0 ∧
        0 ≤ (m.getD i []).getD j 0 ∧ (m.getD i []).getD j 0 ≤ 1) ∧
      (∀ i, i < texts.length → (m.getD i []).getD i 0 = 1) := by
  have hne : texts ≠ [] := by
    intro h
    rw [h] at h2
    norm_num at h2
  have hvocab : vocab (texts.map docFeatures) ≠ [] := by
    obtain ⟨s, hs⟩ := List.exists_mem_of_ne_nil texts hne
    obtain ⟨t, ht⟩ := List.exists_mem_of_ne_nil _ (htok s hs)
    have hmem : t ∈ vocab (texts.map docFeatures) :=
      mem_vocab_of_mem (List.mem_map_of_mem _ hs) ht
    intro hv
    rw [hv] at hmem
    cases hmem
  have hcalc : calculate_similarity texts =
      some (simMatrix (texts.map docFeatures)) := by
    simp only [calculate_similarity]
    rw [if_neg (by omega), if_neg hvocab]
  have hlen : (texts.map docFeatures).length = texts.length := List.length_map _ _
  refine ⟨simMatrix (texts.map docFeatures), hcalc, ?_, ?_, ?_, ?_⟩
  · rw [simMatrix_length, hlen]
  · intro r hr
    rw [simMatrix_row_length hr, hlen]
  · intro i j hi hj
    have hi' : i < (texts.map docFeatures).length := by rw [hlen]; exact hi
    have hj' : j < (texts.map docFeatures).length := by rw [hlen]; exact hj
    rw [simMatrix_entry _ hi' hj', simMatrix_entry _ hj' hi']
    exact ⟨dotOn_comm _ _ _, dot_rows_nonneg _ _ _, dot_rows_le_one _ _ _⟩
  · intro i hi
    have hi' : i < (texts.map docFeatures).length := by rw [hlen]; exact hi
    rw [simMatrix_entry _ hi' hi']
    apply dot_rows_self_eq_one
    have hd : (texts.map docFeatures)[i] = docFeatures texts[i] :=
      List.getElem_map _
    have hne' : (texts.map docFeatures)[i] ≠ [] := by
      rw [hd]
      exact htok _ (List.getElem_mem hi)
    obtain ⟨t, ht⟩ := List.exists_mem_of_ne_nil _ hne'
    exact dotOn_weight_self_pos (List.getElem_mem hi') ht

/-- C2 witness: the amended matrix properties instantiated on the concrete
corpus `["aa", "bb"]`, all hypotheses discharged by computation. -/
theorem c2_matrix_props_witness :
    ∃ m : List (List ℝ),
      calculate_similarity ["aa", "bb"] = some m ∧
      m.length = (["aa", "bb"] : List String).length ∧
      (∀ r ∈ m, r.length = (["aa", "bb"] : List String).length) ∧
      (∀ i j, i < (["aa", "bb"] : List String).length →
        j < (["aa", "bb"] : List String).length →
        (m.getD i []).getD j 0 = (m.getD j []).getD i 0 ∧
        0 ≤ (m.getD i []).getD j 0 ∧ (m.getD i []).getD j 0 ≤ 1) ∧
      (∀ i, i < (["aa", "bb"] : List String).length →
        (m.getD i []).getD i 0 = 1) :=
  c2_matrix_props ["aa", "bb"] (by norm_num) (by decide)

/-- C3 counterexample: the vocabulary is not "all unigrams and bigrams
after whitespace/punctuation tokenization": in the corpus
`["a bb", "a bb"]` the word `"a"` is a unigram of every document under the
spec's tokenization, yet it is absent from the vectorizer's vocabulary
(sklearn's default token pattern discards single-character tokens). -/
theorem c3_vocabulary_counterexample :
    ("a" : String) ∈ specDocFeatures "a bb" ∧
    ("a" : String) ∉ vocab ((["a bb", "a bb"] : List String).map docFeatures) := by
  exact ⟨by decide, by decide⟩

/-- C3 (amended): the vocabulary consists of exactly the unigrams and
bigrams occurring in at least one document, where tokenization takes the
maximal runs of word characters of the lowercased text and keeps only runs
of length at least two (no stop-word removal); each document's raw term
frequency is weighted by `idf(t) = ln((1+N)/(1+df(t))) + 1`; and every
document with at least one feature has a TF-IDF row of unit Euclidean
norm. -/
theorem c3_vectorizer_spec (texts : List String) :
    (∀ t : String, t ∈ vocab (texts.map docFeatures) ↔
      ∃ s ∈ texts, t ∈ docFeatures s) ∧
    (∀ (d : List String) (t : String),
      weightVec (texts.map docFeatures) d t =
        (List.count t d : ℝ) *
          (Real.log ((1 + (texts.length : ℝ)) /
            (1 + (df (texts.map docFeatures) t : ℝ))) + 1)) ∧
    (∀ s ∈ texts, docFeatures s ≠ [] →
      dotOn (tfidfRow (texts.map docFeatures) (docFeatures s))
        (tfidfRow (texts.map docFeatures) (docFeatures s))
        (vocab (texts.map docFeatures)) = 1) := by
  refine ⟨?_, ?_, ?_⟩
  · intro t
    rw [vocab, List.mem_dedup, List.mem_flatten]
    constructor
    · rintro ⟨d, hd, ht⟩
      obtain ⟨s, hs, rfl⟩ := List.mem_map.mp hd
      exact ⟨s, hs, ht⟩
    · rintro ⟨s, hs, ht⟩
      exact ⟨docFeatures s, List.mem_map_of_mem _ hs, ht⟩
  · intro d t
    rw [weightVec, tf, idf, List.length_map]
  · intro s hs hne
    apply dot_rows_self_eq_one
    obtain ⟨t, ht⟩ := List.exists_mem_of_ne_nil _ hne
    exact dotOn_weight_self_pos (List.mem_map_of_mem _ hs) ht

/-- C3 witness: the amended vectorizer description instantiated on the
corpus `["aa bb", "aa"]`: membership of "aa" in the vocabulary, and the
unit norm of the first document's row. -/
theorem c3_vectorizer_spec_witness :
    ("aa" : String) ∈ vocab ((["aa bb", "aa"] : List String).map docFeatures) ∧
    dotOn (tfidfRow ((["aa bb", "aa"] : List String).map docFeatures) (docFeatures "aa bb"))
      (tfidfRow ((["aa bb", "aa"] : List String).map docFeatures) (docFeatures "aa bb"))
      (vocab ((["aa bb", "aa"] : List String).map docFeatures)) = 1 :=
  ⟨((c3_vectorizer_spec ["aa bb", "aa"]).1 "aa").mpr ⟨"aa bb", by decide, by decide⟩,
   (c3_vectorizer_spec ["aa bb", "aa"]).2.2 "aa bb" (by decide) (by decide)⟩

/-- C6: a request with fewer than 2 files fails with `tooFewFiles`, one with
more than 100 files fails with `tooManyFiles` (both before any extraction,
as the checks precede the extraction loop), and an in-range request in which
fewer than 2 documents are eligible (non-empty extracted text) fails with
`insufficientDocuments`; in every case only an error is returned, never
partial results. -/
theorem c6_request_validation (files : List UploadedFile) :
    (files.length < 2 → analyze files = .error .tooFewFiles) ∧
    (100 < files.length → analyze files = .error .tooManyFiles) ∧
    (2 ≤ files.length → files.length ≤ 100 → (eligibleDocs files).length < 2 →
      analyze files = .error .insufficientDocuments) := by
  refine ⟨fun h => ?_, fun h => ?_, fun h1 h2 h3 => ?_⟩
  · simp only [analyze]
    rw [if_pos h]
  · simp only [analyze]
    rw [if_neg (by omega), if_pos h]
  · simp only [analyze]
    rw [if_neg (by omega), if_neg (by omega), if_pos h3]

/-- C6 witness: the three validation failures at concrete requests: zero
files, 101 files, and two files with an unsupported extension. -/
theorem c6_request_validation_witness :
    analyze [] = .error .tooFewFiles ∧
    analyze (List.replicate 101 ⟨"a.txt", "aa"⟩) = .error .tooManyFiles ∧
    analyze [⟨"a.exe", "xx"⟩, ⟨"b.exe", "yy"⟩] = .error .insufficientDocuments :=
  ⟨(c6_request_validation []).1 (by norm_num),
   (c6_request_validation _).2.1 (by rw [List.length_replicate]; norm_num),
   (c6_request_validation _).2.2 (by decide) (by decide) (by decide)⟩

/-- C7: in every successful response, `comparisons` equals the length of the
reported `results` list (the number of pairs that met the threshold, by C1),
and `total_files` equals the number of eligible documents. -/
theorem c7_response_counts (files : List UploadedFile) (r : AnalyzeResponse)
    (h : analyze files = .ok r) :
    r.comparisons = r.results.length ∧
    r.total_files = (eligibleDocs files).length := by
  simp only [analyze] at h
  by_cases h1 : files.length < 2
  · rw [if_pos h1] at h; cases h
  · rw [if_neg h1] at h
    by_cases h2 : 100 < files.length
    · rw [if_pos h2] at h; cases h
    · rw [if_neg h2] at h
      by_cases h3 : (eligibleDocs files).length < 2
      · rw [if_pos h3] at h; cases h
      · rw [if_neg h3] at h
        cases hc : calculate_similarity ((eligibleDocs files).map Prod.snd) with
        | none => rw [hc] at h; cases h
        | some m =>
          rw [hc] at h
          have h' : Except.ok (⟨true, (eligibleDocs files).length,
              (rankResults m ((eligibleDocs files).map Prod.fst)).length,
              rankResults m ((eligibleDocs files).map Prod.fst)⟩ : AnalyzeResponse) =
              Except.ok r := h
          rw [← Except.ok.inj h']
          exact ⟨rfl, rfl⟩

/-- C7 witness: `c7_response_counts` instantiated at a concrete successful
request (two txt files with disjoint one-token texts; no pair reaches the
threshold, so the response is `⟨true, 2, 0, []⟩`). -/
theorem c7_response_counts_witness :
    (⟨true, 2, 0, []⟩ : AnalyzeResponse).comparisons =
      (⟨true, 2, 0, []⟩ : AnalyzeResponse).results.length ∧
    (⟨true, 2, 0, []⟩ : AnalyzeResponse).total_files =
      (eligibleDocs [⟨"a.txt", "aa"⟩, ⟨"b.txt", "bb"⟩]).length := by
  have hD : (["aa", "bb"] : List String).map docFeatures = [["aa"], ["bb"]] := by
    decide
  have hcalc : calculate_similarity (["aa", "bb"] : List String) =
      some (simMatrix [["aa"], ["bb"]]) := by
    rw [calculate_similarity, if_neg (by norm_num)]
    simp only [hD]
    rw [if_neg (by decide)]
  have hentry : ((simMatrix [["aa"], ["bb"]]).getD 0 []).getD 1 0 = 0 := by
    rw [simMatrix_entry _ (by norm_num) (by norm_num)]
    simp only [List.getElem_cons_zero, List.getElem_cons_succ]
    apply dotOn_eq_zero
    have hz : ∀ t ∈ vocab [["aa"], ["bb"]],
        List.count t (["aa"] : List String) = 0 ∨
        List.count t (["bb"] : List String) = 0 := by decide
    intro t ht
    rcases hz t ht with hz0 | hz0
    · rw [tfidfRow_eq_zero _ hz0, zero_mul]
    · rw [tfidfRow_eq_zero _ hz0, mul_zero]
  have hp01 : entryPct (simMatrix [["aa"], ["bb"]]) (0, 1) =
      ((simMatrix [["aa"], ["bb"]]).getD 0 []).getD 1 0 * 100 := rfl
  have hrank : rankResults (simMatrix [["aa"], ["bb"]]) ["a.txt", "b.txt"] = [] := by
    rw [rankResults, keptPairs]
    rw [show pairIdx (["a.txt", "b.txt"] : List String).length = [(0, 1)] from by decide]
    rw [List.filterMap_cons, if_neg (by rw [hp01, hentry]; norm_num),
      List.filterMap_nil]
    rfl
  have hok : analyze [⟨"a.txt", "aa"⟩, ⟨"b.txt", "bb"⟩] =
      .ok ⟨true, 2, 0, []⟩ := by
    rw [show analyze [⟨"a.txt", "aa"⟩, ⟨"b.txt", "bb"⟩] =
        (match calculate_similarity
            ((eligibleDocs [⟨"a.txt", "aa"⟩, ⟨"b.txt", "bb"⟩]).map Prod.snd) with
          | none => Except.error ApiError.similarityFailed
          | some m =>
            Except.ok ⟨true, (eligibleDocs [⟨"a.txt", "aa"⟩, ⟨"b.txt", "bb"⟩]).length,
              (rankResults m ((eligibleDocs [⟨"a.txt", "aa"⟩, ⟨"b.txt", "bb"⟩]).map Prod.fst)).length,
              rankResults m ((eligibleDocs [⟨"a.txt", "aa"⟩, ⟨"b.txt", "bb"⟩]).map Prod.fst)⟩)
      from by rw [analyze, if_neg (by norm_num), if_neg (by norm_num), if_neg (by decide)]]
    rw [show (eligibleDocs [⟨"a.txt", "aa"⟩, ⟨"b.txt", "bb"⟩]).map Prod.snd =
      (["aa", "bb"] : List String) from by decide]
    rw [show (eligibleDocs [⟨"a.txt", "aa"⟩, ⟨"b.txt", "bb"⟩]).map Prod.fst =
      ["a.txt", "b.txt"] from by decide]
    rw [show (eligibleDocs [⟨"a.txt", "aa"⟩, ⟨"b.txt", "bb"⟩]).length = 2 from by decide]
    rw [hcalc]
    show Except.ok (⟨true, 2,
      (rankResults (simMatrix [["aa"], ["bb"]]) ["a.txt", "b.txt"]).length,
      rankResults (simMatrix [["aa"], ["bb"]]) ["a.txt", "b.txt"]⟩ : AnalyzeResponse) = _
    rw [hrank]
    rfl
  exact c7_response_counts _ _ hok

/-- C9: the corpus handed to the similarity computation consists, in upload
order, of exactly the files whose lowercased extension (the text after the
last dot) is pdf, docx, doc or txt and whose extraction (which strips
surrounding whitespace) is non-empty; files with any other extension are
dropped without extraction being attempted. -/
theorem c9_eligible_corpus (files : List UploadedFile) :
    eligibleDocs files =
      (files.filter (fun f =>
        decide (extOf f.filename ∈ allowedExtensions) &&
        decide (extract_text_from_file f ≠ ""))).map
        (fun f => (f.filename, extract_text_from_file f)) := by
  have hunf : ∀ l : List UploadedFile, eligibleDocs l =
      l.filterMap (fun f =>
        if extOf f.filename ∈ allowedExtensions then
          if extract_text_from_file f ≠ "" then
            some (f.filename, extract_text_from_file f)
          else none
        else none) := fun l => rfl
  induction files with
  | nil => rfl
  | cons f fs ih =>
    rw [hunf, List.filterMap_cons, ← hunf, List.filter_cons]
    by_cases h1 : extOf f.filename ∈ allowedExtensions
    · by_cases h2 : extract_text_from_file f ≠ ""
      · rw [if_pos h1, if_pos h2, ih]
        simp [h1, h2]
      · simp only [if_pos h1, if_neg h2, ih]
        simp [h2]
    · simp only [if_neg h1, ih]
      simp [h1]

end CTB
